import Mathlib

/-!
# Sandbox (suBox2D): a shallow embedding of `src/sansumbrella/Sandbox.cpp`

The Sandbox couples a rigid-body physics world to pointer events.  Float values
are embedded as rationals, and the float arithmetic that `createBoundaryRect`
performs is embedded with an explicit rounding after each operation; engine
pointers are handles (`Option Nat`, `none` being the null pointer), and the
engine's intrusive linked lists are Lean lists.
-/

namespace sansumbrella

/-! ## Geometry -/

/-- Two-dimensional vector (`b2Vec2`, `ci::Vec2f`) over exact rationals. -/
structure b2Vec2 where
  x : ℚ
  y : ℚ
deriving DecidableEq

instance : Add b2Vec2 := ⟨fun a b => ⟨a.x + b.x, a.y + b.y⟩⟩
instance : Sub b2Vec2 := ⟨fun a b => ⟨a.x - b.x, a.y - b.y⟩⟩

/-- Axis aligned bounding box handed to the world query. -/
structure b2AABB where
  lowerBound : b2Vec2
  upperBound : b2Vec2
deriving DecidableEq

/-- Modelled from the spec: the toolkit's rectangle type `ci::Rectf` (its declaration is
not part of the sources), given by its upper-left corner `(x1, y1)` and its lower-right
corner `(x2, y2)`. -/
structure Rectf where
  x1 : ℚ
  y1 : ℚ
  x2 : ℚ
  y2 : ℚ
deriving DecidableEq

/-- Modelled from the spec: `Rectf::getWidth` of the toolkit. -/
def Rectf.getWidth (r : Rectf) : ℚ := r.x2 - r.x1

/-- Modelled from the spec: `Rectf::getHeight` of the toolkit. -/
def Rectf.getHeight (r : Rectf) : ℚ := r.y2 - r.y1

/-- Modelled from the spec: `Rectf::getUpperLeft` of the toolkit. -/
def Rectf.getUpperLeft (r : Rectf) : b2Vec2 := ⟨r.x1, r.y1⟩

/-! ## Single precision arithmetic

The source computes in `float`.  A float operation yields the exact result rounded to
binary32; the rounding is the parameter `fl : ℚ → ℚ` of the definitions that embed
float arithmetic of the source, and `f32` is the binary32 rounding itself. -/

/-- Rounding of a rational to the nearest integer, a tie going to the even neighbour. -/
def roundHalfEven (q : ℚ) : ℤ :=
  if q - ⌊q⌋ < 1 / 2 then ⌊q⌋
  else if 1 / 2 < q - ⌊q⌋ then ⌊q⌋ + 1
  else if ⌊q⌋ % 2 = 0 then ⌊q⌋ else ⌊q⌋ + 1

/-- Rounding to binary32 (24 significant bits, smallest exponent -126, round to nearest,
ties to even), for magnitudes up to the largest finite binary32 value; larger magnitudes,
which the hardware turns into an infinity, have no rational counterpart and are not
modelled. -/
def f32 (q : ℚ) : ℚ :=
  if q = 0 then 0
  else roundHalfEven (q / 2 ^ (max (Int.log 2 |q|) (-126) - 23))
    * 2 ^ (max (Int.log 2 |q|) (-126) - 23)

/-! ## The physics engine's data, as far as the Sandbox touches it -/

/-- The three kinds of rigid body of the engine. -/
inductive b2BodyType where
  | b2_staticBody
  | b2_kinematicBody
  | b2_dynamicBody
deriving DecidableEq

/-- Modelled from the spec: the box polygon that `b2PolygonShape::SetAsBox(hx, hy, center, angle)`
builds: half-extents `hx`, `hy` around `center`, turned by `angle`, in body-local
coordinates. -/
structure b2PolygonShape where
  hx : ℚ
  hy : ℚ
  center : b2Vec2
  angle : ℚ
deriving DecidableEq

/-- Modelled from the spec: `b2PolygonShape::SetAsBox` with an explicit centre and angle. -/
def b2PolygonShape.SetAsBox (hx hy : ℚ) (center : b2Vec2) (angle : ℚ) : b2PolygonShape :=
  { hx := hx, hy := hy, center := center, angle := angle }

/-- Fixture definition: the Sandbox code under study only ever sets the shape. -/
structure b2FixtureDef where
  shape : b2PolygonShape
deriving DecidableEq

/-- Body definition: the Sandbox sets the position and the type. -/
structure b2BodyDef where
  position : b2Vec2
  type : b2BodyType
deriving DecidableEq

/-- A rigid body living in the world.  `id` is the handle (the address `b2Body*`),
`fixtures` lists the attached fixtures in the order they were attached. -/
structure b2Body where
  id : Nat
  type : b2BodyType
  position : b2Vec2
  mass : ℚ
  awake : Bool
  fixtures : List b2FixtureDef
deriving DecidableEq

/-- What a `b2Fixture*` gives access to: the owning body (`GetBody()`) and the fixture's
own data. -/
structure b2Fixture where
  body : b2Body
  fixture : b2FixtureDef
deriving DecidableEq

/-- Definition of a mouse joint as filled in by `Sandbox::mouseDown`. -/
structure b2MouseJointDef where
  bodyA : Option Nat
  bodyB : Option Nat
  target : b2Vec2
  maxForce : ℚ
deriving DecidableEq

/-- A joint living in the world; `id` is its handle (the address `b2Joint*`). -/
structure b2Joint where
  id : Nat
  bodyA : Option Nat
  bodyB : Option Nat
  target : b2Vec2
  maxForce : ℚ
deriving DecidableEq

/-- The world handle: the engine's body list and joint list (`GetBodyList`,
`GetJointList`), head first. -/
structure b2World where
  bodies : List b2Body
  joints : List b2Joint
deriving DecidableEq

/-- Modelled from the spec: the engine's allocator, which hands out a handle that no live
object of the given list of handles uses. -/
def freshHandle (used : List Nat) : Nat := used.foldr max 0 + 1

/-- Modelled from the spec: `b2World::CreateBody`, the engine's body creation primitive.
The new body is linked at the head of the body list, has no fixture and no mass yet and
is awake; its handle is returned. -/
def b2World.CreateBody (w : b2World) (d : b2BodyDef) : b2World × Nat :=
  let h := freshHandle (w.bodies.map b2Body.id)
  ({ w with bodies :=
      { id := h, type := d.type, position := d.position, mass := 0, awake := true,
        fixtures := [] } :: w.bodies }, h)

/-- Modelled from the spec: `b2Body::CreateFixture`, attaching one more fixture to the
body with handle `h` (fixtures of the Sandbox's walls carry no density, so the mass is
left as it is). -/
def b2World.CreateFixture (w : b2World) (h : Nat) (d : b2FixtureDef) : b2World :=
  { w with bodies :=
      w.bodies.map fun b => if b.id = h then { b with fixtures := b.fixtures ++ [d] } else b }

/-- Whether joint `j` is attached to the body with handle `h`. -/
def b2Joint.attachedTo (j : b2Joint) (h : Nat) : Bool :=
  j.bodyA == some h || j.bodyB == some h

/-- Modelled from the spec: `b2World::DestroyBody`, the engine's body destruction
primitive.  The body with handle `h` leaves the body list, together with its fixtures, and
the joints attached to it leave the joint list.  A handle naming no live body changes
nothing (handles are slots with an existence check). -/
def b2World.DestroyBody (w : b2World) (h : Nat) : b2World :=
  { bodies := w.bodies.filter fun b => b.id ≠ h
    joints := w.joints.filter fun j => !j.attachedTo h }

/-- Modelled from the spec: `b2World::CreateJoint`, the engine's joint creation primitive.
The new joint is linked at the head of the joint list; its handle is returned. -/
def b2World.CreateJoint (w : b2World) (d : b2MouseJointDef) : b2World × Nat :=
  let h := freshHandle (w.joints.map b2Joint.id)
  ({ w with joints :=
      { id := h, bodyA := d.bodyA, bodyB := d.bodyB, target := d.target,
        maxForce := d.maxForce } :: w.joints }, h)

/-- Modelled from the spec: `b2World::DestroyJoint`, the engine's joint destruction
primitive; a handle naming no live joint changes nothing. -/
def b2World.DestroyJoint (w : b2World) (h : Nat) : b2World :=
  { w with joints := w.joints.filter fun j => j.id ≠ h }

/-- Modelled from the spec: `b2Body::SetAwake` on the body with handle `h`. -/
def b2World.SetAwake (w : b2World) (h : Nat) (flag : Bool) : b2World :=
  { w with bodies := w.bodies.map fun b => if b.id = h then { b with awake := flag } else b }

/-- Modelled from the spec: `b2MouseJoint::SetTarget` on the joint with handle `h`. -/
def b2World.SetTarget (w : b2World) (h : Nat) (target : b2Vec2) : b2World :=
  { w with joints := w.joints.map fun j => if j.id = h then { j with target := target } else j }

/-- Modelled from the spec: the parts of the engine that the spec leaves open.
`broadPhase w box` is the sequence of fixtures whose bounding volume overlaps `box`, in
the order the engine's spatial structure reports them; `TestPoint f p` is the exact
containment test `b2Fixture::TestPoint`. -/
structure Engine where
  broadPhase : b2World → b2AABB → List b2Fixture
  TestPoint : b2Fixture → b2Vec2 → Bool

/-! ## The query callback (`class QueryCallback`) -/

/-- State of the callback object: the queried point and the recorded hit. -/
structure QueryCallback where
  m_point : b2Vec2
  m_fixture : Option b2Fixture
deriving DecidableEq

/-- Constructor `QueryCallback(const b2Vec2& point)`. -/
def QueryCallback.new (point : b2Vec2) : QueryCallback :=
  { m_point := point, m_fixture := none }

/-- The method `QueryCallback::ReportFixture`: the returned flag tells the engine whether to
continue the query. -/
def QueryCallback.ReportFixture (E : Engine) (cb : QueryCallback) (fixture : b2Fixture) :
    Bool × QueryCallback :=
  let body := fixture.body
  if body.type = b2BodyType.b2_dynamicBody then
    let inside := E.TestPoint fixture cb.m_point
    if inside then
      (false, { cb with m_fixture := some fixture })
    else
      (true, cb)
  else
    (true, cb)

/-- Modelled from the spec: the engine's query callback protocol.  The reported fixtures
are handed to the callback one after the other, and the query ends as soon as the
callback answers `false`. -/
def reportAll (E : Engine) : List b2Fixture → QueryCallback → QueryCallback
  | [], cb => cb
  | f :: rest, cb =>
    let r := cb.ReportFixture E f
    if r.1 then reportAll E rest r.2 else r.2

/-- Modelled from the spec: `b2World::QueryAABB`, the broad-phase query followed by the
callback protocol. -/
def b2World.QueryAABB (E : Engine) (w : b2World) (cb : QueryCallback) (aabb : b2AABB) :
    QueryCallback :=
  reportAll E (E.broadPhase w aabb) cb

/-! ## The Sandbox -/

/-- The members of `Sandbox` that the code under study reads or writes. -/
structure Sandbox where
  mWorld : b2World
  mPointsPerMeter : ℚ
  mMetersPerPoint : ℚ
  mBoundaryBody : Option Nat
  mMouseJoint : Option Nat
deriving DecidableEq

/-- Pointer event: the position, in points. -/
structure MouseEvent where
  pos : b2Vec2
deriving DecidableEq

/-- Accessor `MouseEvent::getPos`. -/
def MouseEvent.getPos (e : MouseEvent) : b2Vec2 := e.pos

namespace Sandbox

/-- Modelled from the spec: `Sandbox::toPhysics` on a scalar (declared in the header, which
is not part of the sources): the value times the stored reciprocal. -/
def toPhysics (s : Sandbox) (points : ℚ) : ℚ := points * s.mMetersPerPoint

/-- Modelled from the spec: `Sandbox::toPoints` on a scalar: the value times the scale. -/
def toPoints (s : Sandbox) (meters : ℚ) : ℚ := meters * s.mPointsPerMeter

/-- Modelled from the spec: `Sandbox::toPhysics` on a 2D point, component-wise. -/
def toPhysicsVec (s : Sandbox) (points : b2Vec2) : b2Vec2 :=
  ⟨points.x * s.mMetersPerPoint, points.y * s.mMetersPerPoint⟩

/-- Modelled from the spec: `Sandbox::toPoints` on a 2D point, component-wise. -/
def toPointsVec (s : Sandbox) (meters : b2Vec2) : b2Vec2 :=
  ⟨meters.x * s.mPointsPerMeter, meters.y * s.mPointsPerMeter⟩

/-- Modelled from the spec: `Sandbox::destroyBody` (declared in the header), which forwards
to the engine's body destruction primitive. -/
def destroyBody (s : Sandbox) (h : Nat) : Sandbox :=
  { s with mWorld := s.mWorld.DestroyBody h }

/-- The method `Sandbox::setPointsPerMeter`. -/
def setPointsPerMeter (s : Sandbox) (points : ℚ) : Sandbox :=
  let s1 := { s with mPointsPerMeter := points }
  { s1 with mMetersPerPoint := 1 / s1.mPointsPerMeter }

/-- First loop of `Sandbox::clear`: `node` is the rest of the body list from the current
node on; the successor is read before the current body is destroyed. -/
def clearBodies : List b2Body → Sandbox → Sandbox
  | [], s => s
  | b :: next, s => clearBodies next (s.destroyBody b.id)

/-- Second loop of `Sandbox::clear`: `joint` is the rest of the joint list from the current
node on; the successor is read before the current joint is destroyed. -/
def clearJoints : List b2Joint → Sandbox → Sandbox
  | [], s => s
  | j :: next, s => clearJoints next { s with mWorld := s.mWorld.DestroyJoint j.id }

/-- The method `Sandbox::clear`. -/
def clear (s : Sandbox) : Sandbox :=
  let s1 := clearBodies s.mWorld.bodies s
  clearJoints s1.mWorld.joints s1

/-- The method `Sandbox::createBody(body_def, fixture_defs)`: one body, then each fixture in
sequence order. -/
def createBody (s : Sandbox) (body_def : b2BodyDef) (fixture_defs : List b2FixtureDef) :
    Nat × Sandbox :=
  let r := s.mWorld.CreateBody body_def
  let body := r.2
  (body, { s with mWorld := fixture_defs.foldl (fun w d => w.CreateFixture body d) r.1 })

/-- The method `Sandbox::createBoundaryRect`.  `fl` is the rounding of single precision
arithmetic: each float operation of the first five lines (`/ 2.0f`, `+ thickness`,
`upperLeft.x + w`, `- thickness`), and each float returned by `getWidth`, `getHeight` and
`toPhysics`, is the exact result rounded by `fl`. -/
def createBoundaryRect (fl : ℚ → ℚ) (s : Sandbox) (screen_bounds : Rectf) (thickness : ℚ) :
    Nat × Sandbox :=
  let w := fl (fl (s.toPhysics (fl (fl screen_bounds.getWidth / 2))) + thickness)
  let h := fl (fl (s.toPhysics (fl (fl screen_bounds.getHeight / 2))) + thickness)
  let upperLeft : b2Vec2 :=
    ⟨fl (s.toPhysicsVec screen_bounds.getUpperLeft).x,
     fl (s.toPhysicsVec screen_bounds.getUpperLeft).y⟩
  let x := fl (fl (upperLeft.x + w) - thickness)
  let y := fl (fl (upperLeft.y + h) - thickness)
  let bodyDef : b2BodyDef := { position := ⟨x, y⟩, type := b2BodyType.b2_staticBody }
  let left : b2FixtureDef := { shape := b2PolygonShape.SetAsBox thickness h ⟨-w, 0⟩ 0 }
  let right : b2FixtureDef := { shape := b2PolygonShape.SetAsBox thickness h ⟨w, 0⟩ 0 }
  let top : b2FixtureDef := { shape := b2PolygonShape.SetAsBox w thickness ⟨0, -h⟩ 0 }
  let bottom : b2FixtureDef := { shape := b2PolygonShape.SetAsBox w thickness ⟨0, h⟩ 0 }
  let s1 := match s.mBoundaryBody with
    | some b => s.destroyBody b
    | none => s
  let r := s1.createBody bodyDef [left, right, top, bottom]
  (r.1, { r.2 with mBoundaryBody := some r.1 })

/-- The method `Sandbox::mouseDown`. -/
def mouseDown (E : Engine) (s : Sandbox) (event : MouseEvent) : Bool × Sandbox :=
  if s.mMouseJoint.isSome then
    (false, s)
  else
    let p : b2Vec2 := ⟨s.toPhysics event.getPos.x, s.toPhysics event.getPos.y⟩
    let d : b2Vec2 := ⟨1 / 1000, 1 / 1000⟩
    let aabb : b2AABB := { lowerBound := p - d, upperBound := p + d }
    let callback := s.mWorld.QueryAABB E (QueryCallback.new p) aabb
    match callback.m_fixture with
    | some fixture =>
      let body := fixture.body
      let md : b2MouseJointDef :=
        { bodyA := some body.id, bodyB := s.mBoundaryBody, target := p,
          maxForce := 1000 * body.mass }
      let r := s.mWorld.CreateJoint md
      (false, { s with mWorld := r.1.SetAwake body.id true, mMouseJoint := some r.2 })
    | none => (false, s)

/-- The method `Sandbox::mouseUp`. -/
def mouseUp (s : Sandbox) (_event : MouseEvent) : Bool × Sandbox :=
  match s.mMouseJoint with
  | some j => (false, { s with mWorld := s.mWorld.DestroyJoint j, mMouseJoint := none })
  | none => (false, s)

/-- The method `Sandbox::mouseDrag`. -/
def mouseDrag (s : Sandbox) (event : MouseEvent) : Bool × Sandbox :=
  match s.mMouseJoint with
  | some j =>
    let target : b2Vec2 := ⟨s.toPhysics event.getPos.x, s.toPhysics event.getPos.y⟩
    (false, { s with mWorld := s.mWorld.SetTarget j target })
  | none => (false, s)

end Sandbox

/-- The three pointer signals that `Sandbox::connectUserSignals` subscribes to. -/
inductive PointerSignal where
  | press (event : MouseEvent)
  | release (event : MouseEvent)
  | drag (event : MouseEvent)
deriving DecidableEq

/-- Dispatch of one signal to its handler, as wired by `Sandbox::connectUserSignals`. -/
def Sandbox.deliver (E : Engine) (s : Sandbox) : PointerSignal → Sandbox
  | .press event => (s.mouseDown E event).2
  | .release event => (s.mouseUp event).2
  | .drag event => (s.mouseDrag event).2

/-- Delivery of a sequence of signals, oldest first. -/
def Sandbox.deliverAll (E : Engine) (s : Sandbox) (signals : List PointerSignal) : Sandbox :=
  signals.foldl (Sandbox.deliver E) s


/-! ## Names for intermediate values of the handlers, used to state the theorems -/

/-- The point `p` computed on the first line of the body of `Sandbox::mouseDown`: the pointer
position converted to physics units. -/
def Sandbox.pressPoint (s : Sandbox) (event : MouseEvent) : b2Vec2 :=
  ⟨s.toPhysics event.getPos.x, s.toPhysics event.getPos.y⟩

/-- The small box `aabb` that `Sandbox::mouseDown` builds around `p`. -/
def Sandbox.pressBox (s : Sandbox) (event : MouseEvent) : b2AABB :=
  { lowerBound := s.pressPoint event - ⟨1 / 1000, 1 / 1000⟩
    upperBound := s.pressPoint event + ⟨1 / 1000, 1 / 1000⟩ }

/-- The callback object after the world query of `Sandbox::mouseDown`. -/
def Sandbox.pressQuery (E : Engine) (s : Sandbox) (event : MouseEvent) : QueryCallback :=
  s.mWorld.QueryAABB E (QueryCallback.new (s.pressPoint event)) (s.pressBox event)

/-- Whether a reported fixture is one the callback accepts for point `p`: it belongs to a
dynamic body and its shape contains `p`. -/
def Engine.accepts (E : Engine) (p : b2Vec2) (f : b2Fixture) : Bool :=
  decide (f.body.type = b2BodyType.b2_dynamicBody) && E.TestPoint f p

/-- Delivery of a run of drag events, oldest first. -/
def Sandbox.dragAll (s : Sandbox) (drags : List MouseEvent) : Sandbox :=
  drags.foldl (fun t e => (t.mouseDrag e).2) s

/-- The world in which `Sandbox::createBoundaryRect` creates the new body: the current world
once the previous boundary body, if any, has been destroyed. -/
def Sandbox.worldWithoutBoundary (s : Sandbox) : b2World :=
  match s.mBoundaryBody with
  | some b => s.mWorld.DestroyBody b
  | none => s.mWorld

/-- The value `w` of `Sandbox::createBoundaryRect`: the half width in physics units plus
the thickness, as the float operations produce it under the rounding `fl`. -/
def Sandbox.boundaryW (fl : ℚ → ℚ) (s : Sandbox) (screen_bounds : Rectf) (thickness : ℚ) : ℚ :=
  fl (fl (s.toPhysics (fl (fl screen_bounds.getWidth / 2))) + thickness)

/-- The value `h` of `Sandbox::createBoundaryRect`: the half height in physics units plus
the thickness, as the float operations produce it under the rounding `fl`. -/
def Sandbox.boundaryH (fl : ℚ → ℚ) (s : Sandbox) (screen_bounds : Rectf) (thickness : ℚ) : ℚ :=
  fl (fl (s.toPhysics (fl (fl screen_bounds.getHeight / 2))) + thickness)

/-- The value `x` of `Sandbox::createBoundaryRect`, the x coordinate given to the body. -/
def Sandbox.boundaryX (fl : ℚ → ℚ) (s : Sandbox) (screen_bounds : Rectf) (thickness : ℚ) : ℚ :=
  fl (fl (fl (s.toPhysicsVec screen_bounds.getUpperLeft).x
    + s.boundaryW fl screen_bounds thickness) - thickness)

/-- The value `y` of `Sandbox::createBoundaryRect`, the y coordinate given to the body. -/
def Sandbox.boundaryY (fl : ℚ → ℚ) (s : Sandbox) (screen_bounds : Rectf) (thickness : ℚ) : ℚ :=
  fl (fl (fl (s.toPhysicsVec screen_bounds.getUpperLeft).y
    + s.boundaryH fl screen_bounds thickness) - thickness)

/-- The four wall fixtures of `Sandbox::createBoundaryRect`, in the order left, right, top,
bottom, with `w` and `h` the values computed there. -/
def Sandbox.boundaryWalls (fl : ℚ → ℚ) (s : Sandbox) (screen_bounds : Rectf) (thickness : ℚ) :
    List b2FixtureDef :=
  [ { shape := b2PolygonShape.SetAsBox thickness (s.boundaryH fl screen_bounds thickness)
        ⟨-s.boundaryW fl screen_bounds thickness, 0⟩ 0 },
    { shape := b2PolygonShape.SetAsBox thickness (s.boundaryH fl screen_bounds thickness)
        ⟨s.boundaryW fl screen_bounds thickness, 0⟩ 0 },
    { shape := b2PolygonShape.SetAsBox (s.boundaryW fl screen_bounds thickness) thickness
        ⟨0, -s.boundaryH fl screen_bounds thickness⟩ 0 },
    { shape := b2PolygonShape.SetAsBox (s.boundaryW fl screen_bounds thickness) thickness
        ⟨0, s.boundaryH fl screen_bounds thickness⟩ 0 } ]

/-- The body that `Sandbox::createBoundaryRect` leaves in the world under handle `handle`. -/
def Sandbox.boundaryBody (fl : ℚ → ℚ) (s : Sandbox) (screen_bounds : Rectf) (thickness : ℚ)
    (handle : Nat) : b2Body :=
  { id := handle, type := b2BodyType.b2_staticBody,
    position := ⟨s.boundaryX fl screen_bounds thickness, s.boundaryY fl screen_bounds thickness⟩,
    mass := 0, awake := true, fixtures := s.boundaryWalls fl screen_bounds thickness }

/-- Smallest world x coordinate of the box of fixture `f` on the unrotated body `b`. -/
def boxMinX (b : b2Body) (f : b2FixtureDef) : ℚ := b.position.x + f.shape.center.x - f.shape.hx

/-- Largest world x coordinate of the box of fixture `f` on the unrotated body `b`. -/
def boxMaxX (b : b2Body) (f : b2FixtureDef) : ℚ := b.position.x + f.shape.center.x + f.shape.hx

/-- Smallest world y coordinate of the box of fixture `f` on the unrotated body `b`. -/
def boxMinY (b : b2Body) (f : b2FixtureDef) : ℚ := b.position.y + f.shape.center.y - f.shape.hy

/-- Largest world y coordinate of the box of fixture `f` on the unrotated body `b`. -/
def boxMaxY (b : b2Body) (f : b2FixtureDef) : ℚ := b.position.y + f.shape.center.y + f.shape.hy

/-- Exact containment test for the box of a fixture whose body is not rotated. -/
def boxTestPoint (f : b2Fixture) (p : b2Vec2) : Bool :=
  decide (boxMinX f.body f.fixture ≤ p.x) && decide (p.x ≤ boxMaxX f.body f.fixture) &&
  decide (boxMinY f.body f.fixture ≤ p.y) && decide (p.y ≤ boxMaxY f.body f.fixture)

/-- The joint list of `s` during a drag begun in a world whose joint list was `J0`: either
no drag joint is held and the list is `J0`, or the held joint is the head of the list, its
handle is used by no joint of `J0`, and `J0` is the rest. -/
def DragInvariant (J0 : List b2Joint) (s : Sandbox) : Prop :=
  (s.mMouseJoint = none ∧ s.mWorld.joints = J0) ∨
  (∃ j : b2Joint, s.mMouseJoint = some j.id ∧ s.mWorld.joints = j :: J0 ∧
    ∀ k ∈ J0, k.id ≠ j.id)

/-! ## A concrete engine and a concrete scene, used to exercise the definitions -/

/-- Every fixture of every body of the world, in body list order: the broad phase of an
engine that reports all fixtures. -/
def allFixtures (w : b2World) : List b2Fixture :=
  w.bodies.flatMap fun b => b.fixtures.map fun f => { body := b, fixture := f }

/-- An engine reporting every fixture and testing unrotated boxes exactly. -/
def boxEngine : Engine :=
  { broadPhase := fun w _ => allFixtures w, TestPoint := boxTestPoint }

/-- A unit square fixture around the body origin. -/
def unitBox : b2FixtureDef := { shape := b2PolygonShape.SetAsBox (1 / 2) (1 / 2) ⟨0, 0⟩ 0 }

/-- A static ground body with handle 1. -/
def groundBody : b2Body :=
  { id := 1, type := b2BodyType.b2_staticBody, position := ⟨0, 0⟩, mass := 0, awake := true,
    fixtures := [unitBox] }

/-- A dynamic crate with handle 2, centred at (5/2, 1), of mass 3, asleep. -/
def crateBody : b2Body :=
  { id := 2, type := b2BodyType.b2_dynamicBody, position := ⟨5 / 2, 1⟩, mass := 3,
    awake := false, fixtures := [unitBox] }

/-- An idle Sandbox at 100 points per metre holding the ground and the crate. -/
def idleScene : Sandbox :=
  { mWorld := { bodies := [crateBody, groundBody], joints := [] }
    mPointsPerMeter := 100
    mMetersPerPoint := 1 / 100
    mBoundaryBody := some 1
    mMouseJoint := none }

/-- A press at (250, 100) points: on the crate. -/
def pressOnCrate : MouseEvent := { pos := ⟨250, 100⟩ }

/-- A press at (900, 900) points: on nothing. -/
def pressOnNothing : MouseEvent := { pos := ⟨900, 900⟩ }

end sansumbrella

/-! ## Theorems -/

namespace sansumbrella

open Sandbox

/-! ### Helper lemmas about the engine primitives and the two loops of `clear` -/

theorem lt_freshHandle (used : List Nat) : ∀ x ∈ used, x < freshHandle used := by
  induction used with
  | nil => intro x hx; cases hx
  | cons a rest ih =>
    intro x hx
    have hx' : x = a ∨ x ∈ rest := by simpa using hx
    unfold freshHandle at ih ⊢
    simp only [List.foldr_cons]
    rcases hx' with h | h
    · subst h
      exact Nat.lt_succ_of_le (le_max_left _ _)
    · have := ih x h
      exact Nat.lt_succ_of_le (le_trans (Nat.le_of_lt_succ this) (le_max_right _ _))

theorem clearBodies_bodies (l : List b2Body) (s : Sandbox) :
    (clearBodies l s).mWorld.bodies
      = s.mWorld.bodies.filter fun b => decide (b.id ∉ l.map b2Body.id) := by
  induction l generalizing s with
  | nil => simp [clearBodies]
  | cons b next ih =>
    simp only [clearBodies]
    rw [ih]
    simp only [destroyBody, b2World.DestroyBody, List.filter_filter]
    apply List.filter_congr
    intro x _
    simp only [List.map_cons, List.mem_cons, not_or, Bool.decide_and, decide_not]
    rw [Bool.and_comm, eq_comm]

theorem clearBodies_frame (l : List b2Body) (s : Sandbox) :
    (clearBodies l s).mBoundaryBody = s.mBoundaryBody ∧
    (clearBodies l s).mMouseJoint = s.mMouseJoint ∧
    (clearBodies l s).mPointsPerMeter = s.mPointsPerMeter ∧
    (clearBodies l s).mMetersPerPoint = s.mMetersPerPoint := by
  induction l generalizing s with
  | nil => simp [clearBodies]
  | cons b next ih =>
    simp only [clearBodies]
    have := ih (s.destroyBody b.id)
    simpa [destroyBody] using this

theorem clearJoints_joints (l : List b2Joint) (s : Sandbox) :
    (clearJoints l s).mWorld.joints
      = s.mWorld.joints.filter fun j => decide (j.id ∉ l.map b2Joint.id) := by
  induction l generalizing s with
  | nil => simp [clearJoints]
  | cons j next ih =>
    simp only [clearJoints]
    rw [ih]
    simp only [b2World.DestroyJoint, List.filter_filter]
    apply List.filter_congr
    intro x _
    simp only [List.map_cons, List.mem_cons, not_or, Bool.decide_and, decide_not]
    rw [Bool.and_comm, eq_comm]

theorem clearJoints_frame (l : List b2Joint) (s : Sandbox) :
    (clearJoints l s).mWorld.bodies = s.mWorld.bodies ∧
    (clearJoints l s).mBoundaryBody = s.mBoundaryBody ∧
    (clearJoints l s).mMouseJoint = s.mMouseJoint ∧
    (clearJoints l s).mPointsPerMeter = s.mPointsPerMeter ∧
    (clearJoints l s).mMetersPerPoint = s.mMetersPerPoint := by
  induction l generalizing s with
  | nil => simp [clearJoints]
  | cons j next ih =>
    simp only [clearJoints]
    have := ih { s with mWorld := s.mWorld.DestroyJoint j.id }
    simpa [b2World.DestroyJoint] using this

theorem filter_not_mem_map_self {α : Type} (f : α → Nat) (l : List α) :
    (l.filter fun a => decide (f a ∉ l.map f)) = [] := by
  rw [List.filter_eq_nil_iff]
  intro a ha
  simp only [decide_eq_true_eq, not_not]
  exact List.mem_map_of_mem f ha

theorem clear_bodies_nil (s : Sandbox) : (clear s).mWorld.bodies = [] := by
  unfold clear
  rw [(clearJoints_frame _ _).1, clearBodies_bodies]
  exact filter_not_mem_map_self b2Body.id s.mWorld.bodies

theorem clear_joints_nil (s : Sandbox) : (clear s).mWorld.joints = [] := by
  unfold clear
  rw [clearJoints_joints]
  exact filter_not_mem_map_self b2Joint.id _

theorem clear_frame (s : Sandbox) :
    (clear s).mBoundaryBody = s.mBoundaryBody ∧ (clear s).mMouseJoint = s.mMouseJoint := by
  unfold clear
  have h1 := clearJoints_frame (clearBodies s.mWorld.bodies s).mWorld.joints
    (clearBodies s.mWorld.bodies s)
  have h2 := clearBodies_frame s.mWorld.bodies s
  exact ⟨h1.2.1.trans h2.1, h1.2.2.1.trans h2.2.1⟩

theorem mouseDown_of_isSome (E : Engine) (s : Sandbox) (event : MouseEvent)
    (h : s.mMouseJoint.isSome = true) : s.mouseDown E event = (false, s) := by
  simp [mouseDown, h]

theorem reportAll_m_fixture (E : Engine) (reported : List b2Fixture) (cb : QueryCallback)
    (h : cb.m_fixture = none) :
    (reportAll E reported cb).m_fixture
      = reported.find? fun f =>
          decide (f.body.type = b2BodyType.b2_dynamicBody) && E.TestPoint f cb.m_point := by
  induction reported with
  | nil => simp [reportAll, h]
  | cons f rest ih =>
    by_cases hd : f.body.type = b2BodyType.b2_dynamicBody
    · by_cases ht : E.TestPoint f cb.m_point = true
      · simp [reportAll, QueryCallback.ReportFixture, hd, ht]
      · simp [reportAll, QueryCallback.ReportFixture, hd, ht, ih]
    · simp [reportAll, QueryCallback.ReportFixture, hd, ih]

/-! ### Unit conversion -/

/-- C5: for every positive scale `k`, after `setPointsPerMeter k` the stored scale is `k` and
the stored reciprocal is `1 / k`; `toPhysics` multiplies by `1 / k` and `toPoints` by `k`, on
scalars and component-wise on 2D points; and the two conversions are inverse to each other
in both directions (exact arithmetic). -/
theorem setPointsPerMeter_conversions_roundtrip (s : Sandbox) (k : ℚ) (hk : 0 < k)
    (v : ℚ) (p : b2Vec2) :
    (s.setPointsPerMeter k).mPointsPerMeter = k ∧
    (s.setPointsPerMeter k).mMetersPerPoint = 1 / k ∧
    (s.setPointsPerMeter k).toPhysics v = v * (1 / k) ∧
    (s.setPointsPerMeter k).toPoints v = v * k ∧
    (s.setPointsPerMeter k).toPhysicsVec p = ⟨p.x * (1 / k), p.y * (1 / k)⟩ ∧
    (s.setPointsPerMeter k).toPointsVec p = ⟨p.x * k, p.y * k⟩ ∧
    (s.setPointsPerMeter k).toPoints ((s.setPointsPerMeter k).toPhysics v) = v ∧
    (s.setPointsPerMeter k).toPhysics ((s.setPointsPerMeter k).toPoints v) = v ∧
    (s.setPointsPerMeter k).toPointsVec ((s.setPointsPerMeter k).toPhysicsVec p) = p ∧
    (s.setPointsPerMeter k).toPhysicsVec ((s.setPointsPerMeter k).toPointsVec p) = p := by
  have hk0 : k ≠ 0 := ne_of_gt hk
  refine ⟨rfl, rfl, rfl, rfl, rfl, rfl, ?_, ?_, ?_, ?_⟩
  · simp only [toPoints, toPhysics, setPointsPerMeter]
    field_simp
  · simp only [toPoints, toPhysics, setPointsPerMeter]
    field_simp
  · cases p with
    | mk px py =>
      simp only [toPointsVec, toPhysicsVec, setPointsPerMeter, b2Vec2.mk.injEq]
      constructor <;> field_simp
  · cases p with
    | mk px py =>
      simp only [toPointsVec, toPhysicsVec, setPointsPerMeter, b2Vec2.mk.injEq]
      constructor <;> field_simp

/-- Witness for C5 at scale 100: the value 250 and the point (250, 100). -/
theorem setPointsPerMeter_conversions_roundtrip_witness :
    (0 : ℚ) < 100 ∧
    (idleScene.setPointsPerMeter 100).toPhysics 250 = 250 * (1 / 100) ∧
    (idleScene.setPointsPerMeter 100).toPoints
      ((idleScene.setPointsPerMeter 100).toPhysics 250) = 250 ∧
    (idleScene.setPointsPerMeter 100).toPointsVec
      ((idleScene.setPointsPerMeter 100).toPhysicsVec ⟨250, 100⟩) = ⟨250, 100⟩ :=
  have h := setPointsPerMeter_conversions_roundtrip idleScene 100 (by norm_num) 250 ⟨250, 100⟩
  ⟨by norm_num, h.2.2.1, h.2.2.2.2.2.2.1, h.2.2.2.2.2.2.2.2.1⟩

/-! ### `clear` -/

/-- C7: for every state, whatever bodies and joints the world holds (joints attached to
destroyed bodies included), `clear` (a total function: both loops end) leaves the body list
and the joint list of the world empty. -/
theorem clear_leaves_world_empty (s : Sandbox) :
    (clear s).mWorld.bodies = [] ∧ (clear s).mWorld.joints = [] ∧
    (clear s).mWorld = { bodies := [], joints := [] } := by
  have hb := clear_bodies_nil s
  have hj := clear_joints_nil s
  refine ⟨hb, hj, ?_⟩
  cases hw : (clear s).mWorld with
  | mk bodies joints =>
    rw [hw] at hb hj
    simp only at hb hj
    rw [hb, hj]

/-- C8: `clear` resets neither reference held by the Sandbox: the boundary-body reference and
the drag-joint reference after `clear` equal their values before it, although no body and no
joint of the world carries these handles any more; a press in a state with a non-null
drag-joint reference is still rejected after `clear`, whatever the engine would report; and
such a state with a dangling drag-joint reference is reached from an idle state by a press on
a dynamic body followed by `clear`. -/
theorem clear_keeps_references (E : Engine) (s : Sandbox) :
    (clear s).mBoundaryBody = s.mBoundaryBody ∧
    (clear s).mMouseJoint = s.mMouseJoint ∧
    (∀ b ∈ (clear s).mWorld.bodies, some b.id ≠ s.mBoundaryBody) ∧
    (∀ j ∈ (clear s).mWorld.joints, some j.id ≠ s.mMouseJoint) ∧
    (∀ event, s.mMouseJoint.isSome = true →
      (clear s).mouseDown E event = (false, clear s)) ∧
    (∃ (E0 : Engine) (s0 : Sandbox) (event : MouseEvent),
      s0.mMouseJoint = none ∧
      (clear (s0.mouseDown E0 event).2).mMouseJoint ≠ none ∧
      (clear (s0.mouseDown E0 event).2).mWorld.joints = []) := by
  have hf := clear_frame s
  refine ⟨hf.1, hf.2, ?_, ?_, ?_, ?_⟩
  · intro b hb
    rw [clear_bodies_nil] at hb
    cases hb
  · intro j hj
    rw [clear_joints_nil] at hj
    cases hj
  · intro event h
    apply mouseDown_of_isSome
    rw [hf.2]
    exact h
  · refine ⟨boxEngine, idleScene, pressOnCrate, rfl, ?_, clear_joints_nil _⟩
    have hpress : (idleScene.mouseDown boxEngine pressOnCrate).2.mMouseJoint = some 1 := by
      norm_num [Sandbox.mouseDown, idleScene, pressOnCrate, boxEngine, b2World.QueryAABB,
        allFixtures, reportAll, QueryCallback.ReportFixture, boxTestPoint, crateBody,
        groundBody, unitBox, QueryCallback.new, Sandbox.toPhysics, MouseEvent.getPos,
        b2PolygonShape.SetAsBox, b2World.CreateJoint, freshHandle, boxMinX, boxMaxX, boxMinY,
        boxMaxY]
    rw [(clear_frame _).2, hpress]
    exact Option.some_ne_none 1

/-! ### The query callback -/

/-- C10: `ReportFixture` answers `false` (terminate the query) exactly for a fixture of a
dynamic body whose shape contains the queried point, in which case it records that fixture,
and answers `true` (continue) and records nothing for every other fixture; hence, for every
sequence of fixtures reported for point `p`, the recorded hit is the first fixture in report
order that belongs to a dynamic body and contains `p`, it is null when no reported fixture
qualifies, and a fixture of a static or kinematic body is never recorded. -/
theorem reportFixture_records_first_dynamic_hit (E : Engine) (p : b2Vec2)
    (reported : List b2Fixture) (cb : QueryCallback) (f : b2Fixture) :
    ((cb.ReportFixture E f).1 = false ↔
      (f.body.type = b2BodyType.b2_dynamicBody ∧ E.TestPoint f cb.m_point = true)) ∧
    ((cb.ReportFixture E f).1 = true ↔
      ¬ (f.body.type = b2BodyType.b2_dynamicBody ∧ E.TestPoint f cb.m_point = true)) ∧
    (cb.ReportFixture E f).2 =
      (if f.body.type = b2BodyType.b2_dynamicBody ∧ E.TestPoint f cb.m_point = true
        then { cb with m_fixture := some f } else cb) ∧
    (reportAll E reported (QueryCallback.new p)).m_fixture = reported.find? (E.accepts p) ∧
    ((reportAll E reported (QueryCallback.new p)).m_fixture = none ↔
      ∀ g ∈ reported, ¬ (g.body.type = b2BodyType.b2_dynamicBody ∧ E.TestPoint g p = true)) ∧
    (∀ g, (reportAll E reported (QueryCallback.new p)).m_fixture = some g →
      g ∈ reported ∧ g.body.type = b2BodyType.b2_dynamicBody ∧ E.TestPoint g p = true ∧
      g.body.type ≠ b2BodyType.b2_staticBody ∧ g.body.type ≠ b2BodyType.b2_kinematicBody) := by
  have hfind : (reportAll E reported (QueryCallback.new p)).m_fixture
      = reported.find? (E.accepts p) := by
    rw [reportAll_m_fixture E reported (QueryCallback.new p) rfl]
    rfl
  refine ⟨?_, ?_, ?_, hfind, ?_, ?_⟩
  · by_cases hd : f.body.type = b2BodyType.b2_dynamicBody
    · by_cases ht : E.TestPoint f cb.m_point = true
      · simp [QueryCallback.ReportFixture, hd, ht]
      · simp [QueryCallback.ReportFixture, hd, ht]
    · simp [QueryCallback.ReportFixture, hd]
  · by_cases hd : f.body.type = b2BodyType.b2_dynamicBody
    · by_cases ht : E.TestPoint f cb.m_point = true
      · simp [QueryCallback.ReportFixture, hd, ht]
      · simp [QueryCallback.ReportFixture, hd, ht]
    · simp [QueryCallback.ReportFixture, hd]
  · by_cases hd : f.body.type = b2BodyType.b2_dynamicBody
    · by_cases ht : E.TestPoint f cb.m_point = true
      · simp [QueryCallback.ReportFixture, hd, ht]
      · simp [QueryCallback.ReportFixture, hd, ht]
    · simp [QueryCallback.ReportFixture, hd]
  · rw [hfind, List.find?_eq_none]
    simp [Engine.accepts]
  · intro g hg
    rw [hfind] at hg
    have hmem := List.mem_of_find?_eq_some hg
    have hacc := List.find?_some hg
    simp only [Engine.accepts, Bool.and_eq_true, decide_eq_true_eq] at hacc
    refine ⟨hmem, hacc.1, hacc.2, ?_, ?_⟩
    · rw [hacc.1]; decide
    · rw [hacc.1]; decide

/-! ### Helper lemmas about the pointer handlers -/

theorem mouseDown_idle_eq (E : Engine) (s : Sandbox) (event : MouseEvent)
    (hidle : s.mMouseJoint = none) :
    s.mouseDown E event =
      match (s.pressQuery E event).m_fixture with
      | some fixture =>
        (false, { s with
          mWorld :=
            { bodies := s.mWorld.bodies.map fun b =>
                if b.id = fixture.body.id then { b with awake := true } else b
              joints :=
                { id := freshHandle (s.mWorld.joints.map b2Joint.id)
                  bodyA := some fixture.body.id, bodyB := s.mBoundaryBody
                  target := s.pressPoint event
                  maxForce := 1000 * fixture.body.mass } :: s.mWorld.joints }
          mMouseJoint := some (freshHandle (s.mWorld.joints.map b2Joint.id)) })
      | none => (false, s) := by
  unfold mouseDown
  rw [hidle]
  rfl

theorem mouseDown_hit_eq (E : Engine) (s : Sandbox) (event : MouseEvent) (hit : b2Fixture)
    (hidle : s.mMouseJoint = none) (hhit : (s.pressQuery E event).m_fixture = some hit) :
    s.mouseDown E event =
      (false, { s with
        mWorld :=
          { bodies := s.mWorld.bodies.map fun b =>
              if b.id = hit.body.id then { b with awake := true } else b
            joints :=
              { id := freshHandle (s.mWorld.joints.map b2Joint.id)
                bodyA := some hit.body.id, bodyB := s.mBoundaryBody
                target := s.pressPoint event
                maxForce := 1000 * hit.body.mass } :: s.mWorld.joints }
        mMouseJoint := some (freshHandle (s.mWorld.joints.map b2Joint.id)) }) := by
  rw [mouseDown_idle_eq E s event hidle, hhit]

theorem mouseDown_miss_eq (E : Engine) (s : Sandbox) (event : MouseEvent)
    (hidle : s.mMouseJoint = none) (hmiss : (s.pressQuery E event).m_fixture = none) :
    s.mouseDown E event = (false, s) := by
  rw [mouseDown_idle_eq E s event hidle, hmiss]

theorem pressQuery_m_fixture (E : Engine) (s : Sandbox) (event : MouseEvent) :
    (s.pressQuery E event).m_fixture
      = (E.broadPhase s.mWorld (s.pressBox event)).find? (E.accepts (s.pressPoint event)) := by
  unfold pressQuery b2World.QueryAABB
  rw [reportAll_m_fixture E _ (QueryCallback.new (s.pressPoint event)) rfl]
  rfl

theorem map_ite_eq_self {α : Type} (l : List α) (p : α → Prop) [DecidablePred p]
    (g : α → α) (h : ∀ x ∈ l, ¬ p x) : (l.map fun x => if p x then g x else x) = l := by
  induction l with
  | nil => rfl
  | cons a rest ih =>
    rw [List.map_cons, if_neg (h a (List.mem_cons_self a rest)),
      ih (fun x hx => h x (List.mem_cons_of_mem a hx))]

theorem DragInvariant_mouseDown (E : Engine) (J0 : List b2Joint) (s : Sandbox)
    (event : MouseEvent) (h : DragInvariant J0 s) :
    DragInvariant J0 (s.mouseDown E event).2 := by
  rcases h with ⟨hidle, hj⟩ | ⟨j, hdrag, hj, hfresh⟩
  · cases hq : (s.pressQuery E event).m_fixture with
    | none =>
      rw [mouseDown_miss_eq E s event hidle hq]
      exact Or.inl ⟨hidle, hj⟩
    | some hit =>
      rw [mouseDown_hit_eq E s event hit hidle hq]
      refine Or.inr ⟨{ id := freshHandle (s.mWorld.joints.map b2Joint.id)
                       bodyA := some hit.body.id, bodyB := s.mBoundaryBody
                       target := s.pressPoint event
                       maxForce := 1000 * hit.body.mass }, rfl, ?_, ?_⟩
      · simp only [hj]
      · intro k hk
        simp only
        rw [hj]
        exact Nat.ne_of_lt (lt_freshHandle _ k.id (List.mem_map_of_mem b2Joint.id hk))
  · rw [mouseDown_of_isSome E s event (by rw [hdrag]; rfl)]
    exact Or.inr ⟨j, hdrag, hj, hfresh⟩

theorem DragInvariant_mouseUp (J0 : List b2Joint) (s : Sandbox)
    (event : MouseEvent) (h : DragInvariant J0 s) :
    (s.mouseUp event).2.mMouseJoint = none ∧ (s.mouseUp event).2.mWorld.joints = J0 := by
  rcases h with ⟨hidle, hj⟩ | ⟨j, hdrag, hj, hfresh⟩
  · simp [mouseUp, hidle, hj]
  · simp only [mouseUp, hdrag, b2World.DestroyJoint, hj, true_and]
    rw [List.filter_cons]
    simp only [ne_eq, not_true_eq_false, decide_False, Bool.false_eq_true, if_false]
    rw [List.filter_eq_self]
    intro k hk
    simpa using hfresh k hk

theorem DragInvariant_mouseDrag (J0 : List b2Joint) (s : Sandbox)
    (event : MouseEvent) (h : DragInvariant J0 s) :
    DragInvariant J0 (s.mouseDrag event).2 ∧
    (s.mouseDrag event).2.mMouseJoint = s.mMouseJoint := by
  rcases h with ⟨hidle, hj⟩ | ⟨j, hdrag, hj, hfresh⟩
  · simp only [mouseDrag, hidle]
    exact ⟨Or.inl ⟨hidle, hj⟩, trivial⟩
  · simp only [mouseDrag, hdrag, and_true]
    refine Or.inr ⟨{ j with target := s.pressPoint event }, rfl, ?_, hfresh⟩
    simp only [b2World.SetTarget, hj, List.map_cons, if_true, pressPoint]
    congr 1
    exact map_ite_eq_self J0 _ _ hfresh

theorem DragInvariant_deliverAll (E : Engine) (J0 : List b2Joint) (signals : List PointerSignal)
    (s : Sandbox) (h : DragInvariant J0 s) : DragInvariant J0 (s.deliverAll E signals) := by
  induction signals generalizing s with
  | nil => exact h
  | cons sig rest ih =>
    have hstep : DragInvariant J0 (s.deliver E sig) := by
      cases sig with
      | press event => exact DragInvariant_mouseDown E J0 s event h
      | release event => exact Or.inl (DragInvariant_mouseUp J0 s event h)
      | drag event => exact (DragInvariant_mouseDrag J0 s event h).1
    exact ih (s.deliver E sig) hstep

theorem DragInvariant_dragAll (J0 : List b2Joint) (drags : List MouseEvent)
    (s : Sandbox) (h : DragInvariant J0 s) :
    DragInvariant J0 (s.dragAll drags) ∧ (s.dragAll drags).mMouseJoint = s.mMouseJoint := by
  induction drags generalizing s with
  | nil => exact ⟨h, rfl⟩
  | cons e rest ih =>
    have hstep := DragInvariant_mouseDrag J0 s e h
    have := ih (s.mouseDrag e).2 hstep.1
    exact ⟨this.1, this.2.trans hstep.2⟩

/-! ### The drag joint -/

/-- C1: in every state whose drag-joint reference is non-null, `mouseDown` at any pointer
position returns at once: the result is the unchanged state (joint list and drag-joint
reference included) and is the same whatever the engine would have reported, no query being
made.  Hence, over every sequence of press, drag and release signals delivered from an idle
state, the joint list of the world is the initial joint list preceded by the joints created
by the Sandbox and still alive, of which there is at most one, namely the joint that the
drag-joint reference names. -/
theorem mouseDown_rejected_while_dragging (E : Engine) (s : Sandbox) (event : MouseEvent)
    (signals : List PointerSignal) :
    (s.mMouseJoint.isSome = true →
      s.mouseDown E event = (false, s) ∧
      (s.mouseDown E event).2.mWorld.joints = s.mWorld.joints ∧
      (s.mouseDown E event).2.mMouseJoint = s.mMouseJoint ∧
      ∀ E0 : Engine, s.mouseDown E0 event = (false, s)) ∧
    (s.mMouseJoint = none →
      ∃ created : List b2Joint,
        (s.deliverAll E signals).mWorld.joints = created ++ s.mWorld.joints ∧
        created.length ≤ 1 ∧
        (∀ j ∈ created, (s.deliverAll E signals).mMouseJoint = some j.id ∧
          ∀ k ∈ s.mWorld.joints, k.id ≠ j.id) ∧
        ((s.deliverAll E signals).mMouseJoint = none → created = [])) := by
  constructor
  · intro h
    have h1 := mouseDown_of_isSome E s event h
    refine ⟨h1, ?_, ?_, fun E0 => mouseDown_of_isSome E0 s event h⟩
    · rw [h1]
    · rw [h1]
  · intro hidle
    have hinv := DragInvariant_deliverAll E s.mWorld.joints signals s (Or.inl ⟨hidle, rfl⟩)
    rcases hinv with ⟨hnone, hj⟩ | ⟨j, hdrag, hj, hfresh⟩
    · refine ⟨[], by simpa using hj, by simp, ?_, fun _ => rfl⟩
      intro j hjm
      cases hjm
    · refine ⟨[j], by simpa using hj, by simp, ?_, ?_⟩
      · intro k hk
        have hkj : k = j := by simpa using hk
        subst hkj
        exact ⟨hdrag, hfresh⟩
      · intro hnone
        rw [hdrag] at hnone
        cases hnone

/-- C2: in every idle state, a press whose query records a hit fixture creates exactly one
joint, linked in front of the unchanged former joint list under a handle no former joint
uses, and stores its handle as the drag joint.  The joint connects the body of the hit
fixture (body A) and the boundary body (body B), its maximum force is 1000 times the mass of
the hit body, its target is the pointer position with each coordinate multiplied by the
stored reciprocal of the scale (which is `1 / scale` when the two stored numbers are
consistent), and the hit body is set awake while no other body changes. -/
theorem mouseDown_hit_creates_one_drag_joint (E : Engine) (s : Sandbox) (event : MouseEvent)
    (hit : b2Fixture) (hidle : s.mMouseJoint = none)
    (hhit : (s.pressQuery E event).m_fixture = some hit) :
    ∃ j : b2Joint,
      (s.mouseDown E event).2.mWorld.joints = j :: s.mWorld.joints ∧
      (s.mouseDown E event).2.mWorld.joints.length = s.mWorld.joints.length + 1 ∧
      (∀ k ∈ s.mWorld.joints, k.id ≠ j.id) ∧
      (s.mouseDown E event).2.mMouseJoint = some j.id ∧
      j.bodyA = some hit.body.id ∧
      j.bodyB = s.mBoundaryBody ∧
      j.maxForce = 1000 * hit.body.mass ∧
      j.target = ⟨event.getPos.x * s.mMetersPerPoint, event.getPos.y * s.mMetersPerPoint⟩ ∧
      (s.mMetersPerPoint = 1 / s.mPointsPerMeter →
        j.target = ⟨event.getPos.x * (1 / s.mPointsPerMeter),
                    event.getPos.y * (1 / s.mPointsPerMeter)⟩) ∧
      (s.mouseDown E event).2.mWorld.bodies
        = (s.mWorld.bodies.map fun b =>
            if b.id = hit.body.id then { b with awake := true } else b) ∧
      (∀ b ∈ (s.mouseDown E event).2.mWorld.bodies, b.id = hit.body.id → b.awake = true) ∧
      (hit.body ∈ s.mWorld.bodies →
        { hit.body with awake := true } ∈ (s.mouseDown E event).2.mWorld.bodies) ∧
      (s.mouseDown E event).2.mBoundaryBody = s.mBoundaryBody ∧
      hit.body.type = b2BodyType.b2_dynamicBody ∧
      E.TestPoint hit (s.pressPoint event) = true := by
  have hacc : E.accepts (s.pressPoint event) hit = true := by
    rw [pressQuery_m_fixture] at hhit
    exact List.find?_some hhit
  simp only [Engine.accepts, Bool.and_eq_true, decide_eq_true_eq] at hacc
  rw [mouseDown_hit_eq E s event hit hidle hhit]
  refine ⟨{ id := freshHandle (s.mWorld.joints.map b2Joint.id)
            bodyA := some hit.body.id, bodyB := s.mBoundaryBody
            target := s.pressPoint event
            maxForce := 1000 * hit.body.mass },
    rfl, by simp, ?_, rfl, rfl, rfl, rfl, rfl, ?_, rfl, ?_, ?_, rfl, hacc.1, hacc.2⟩
  · intro k hk
    exact Nat.ne_of_lt (lt_freshHandle _ k.id (List.mem_map_of_mem b2Joint.id hk))
  · intro hscale
    simp only [pressPoint, toPhysics, hscale]
  · intro b hb hid
    simp only [List.mem_map] at hb
    obtain ⟨a, _, hab⟩ := hb
    by_cases ha : a.id = hit.body.id
    · rw [if_pos ha] at hab
      rw [← hab]
    · rw [if_neg ha] at hab
      rw [← hab] at hid
      exact absurd hid ha
  · intro hmem
    simp only [List.mem_map]
    exact ⟨hit.body, hmem, by simp⟩

/-- C3: in every idle state, a press for which the query reports no fixture that belongs to
a dynamic body and contains the pointer changes nothing: the drag-joint reference stays
null and the joint list and the body list of the world (hence the joint count) are the
same. -/
theorem mouseDown_miss_changes_nothing (E : Engine) (s : Sandbox) (event : MouseEvent)
    (hidle : s.mMouseJoint = none)
    (hmiss : ∀ f ∈ E.broadPhase s.mWorld (s.pressBox event),
      ¬ (f.body.type = b2BodyType.b2_dynamicBody ∧ E.TestPoint f (s.pressPoint event) = true)) :
    s.mouseDown E event = (false, s) ∧
    (s.mouseDown E event).2.mMouseJoint = none ∧
    (s.mouseDown E event).2.mWorld.joints = s.mWorld.joints ∧
    (s.mouseDown E event).2.mWorld.joints.length = s.mWorld.joints.length ∧
    (s.mouseDown E event).2.mWorld.bodies = s.mWorld.bodies := by
  have hq : (s.pressQuery E event).m_fixture = none := by
    rw [pressQuery_m_fixture, List.find?_eq_none]
    intro f hf
    simpa [Engine.accepts] using hmiss f hf
  have h := mouseDown_miss_eq E s event hidle hq
  rw [h]
  exact ⟨rfl, hidle, rfl, rfl, rfl⟩

/-- C4: from every idle state, after a press that records a hit (state Dragging) and any
number of drag events, `mouseUp` destroys the drag joint and clears the drag-joint
reference: the state is idle again, no joint of the world carries the handle of the drag
joint, and the joint list, hence the joint count, is the one before the press; and `mouseUp`
in an idle state changes nothing. -/
theorem mouseUp_restores_joint_list (E : Engine) (s : Sandbox) (press release : MouseEvent)
    (drags : List MouseEvent) (hit : b2Fixture) (hidle : s.mMouseJoint = none)
    (hhit : (s.pressQuery E press).m_fixture = some hit) :
    (s.mouseDown E press).2.mMouseJoint.isSome = true ∧
    (s.mouseDown E press).2.mWorld.joints.length = s.mWorld.joints.length + 1 ∧
    (((s.mouseDown E press).2.dragAll drags).mouseUp release).2.mMouseJoint = none ∧
    (((s.mouseDown E press).2.dragAll drags).mouseUp release).2.mWorld.joints
      = s.mWorld.joints ∧
    (((s.mouseDown E press).2.dragAll drags).mouseUp release).2.mWorld.joints.length
      = s.mWorld.joints.length ∧
    (∀ k ∈ (((s.mouseDown E press).2.dragAll drags).mouseUp release).2.mWorld.joints,
      some k.id ≠ (s.mouseDown E press).2.mMouseJoint) ∧
    (((s.mouseDown E press).2.mouseUp release).2.mWorld.joints = s.mWorld.joints) ∧
    (∀ (t : Sandbox) (e : MouseEvent), t.mMouseJoint = none → t.mouseUp e = (false, t)) := by
  have hinv0 : DragInvariant s.mWorld.joints s := Or.inl ⟨hidle, rfl⟩
  have hinv1 := DragInvariant_mouseDown E s.mWorld.joints s press hinv0
  have hinv2 := DragInvariant_dragAll s.mWorld.joints drags _ hinv1
  have hup := DragInvariant_mouseUp s.mWorld.joints _ release hinv2.1
  have hup1 := DragInvariant_mouseUp s.mWorld.joints _ release hinv1
  have heq := mouseDown_hit_eq E s press hit hidle hhit
  refine ⟨?_, ?_, hup.1, hup.2, by rw [hup.2], ?_, hup1.2, ?_⟩
  · rw [heq]; rfl
  · rw [heq]; simp
  · intro k hk
    rw [hup.2] at hk
    rw [heq]
    simp only [ne_eq, Option.some.injEq]
    exact Nat.ne_of_lt (lt_freshHandle _ k.id (List.mem_map_of_mem b2Joint.id hk))
  · intro t e ht
    simp [mouseUp, ht]

/-! ### Helper lemmas about body creation -/

theorem CreateFixture_head (b : b2Body) (rest : List b2Body) (joints : List b2Joint)
    (d : b2FixtureDef) (h : ∀ x ∈ rest, x.id ≠ b.id) :
    b2World.CreateFixture { bodies := b :: rest, joints := joints } b.id d
      = { bodies := { b with fixtures := b.fixtures ++ [d] } :: rest, joints := joints } := by
  simp only [b2World.CreateFixture, List.map_cons, if_true]
  rw [map_ite_eq_self rest _ _ h]

theorem foldl_CreateFixture_head (defs : List b2FixtureDef) (b : b2Body) (rest : List b2Body)
    (joints : List b2Joint) (h : ∀ x ∈ rest, x.id ≠ b.id) :
    defs.foldl (fun w d => b2World.CreateFixture w b.id d)
        { bodies := b :: rest, joints := joints }
      = { bodies := { b with fixtures := b.fixtures ++ defs } :: rest, joints := joints } := by
  induction defs generalizing b with
  | nil => simp
  | cons d more ih =>
    rw [List.foldl_cons, CreateFixture_head b rest joints d h]
    have := ih { b with fixtures := b.fixtures ++ [d] } h
    simp only at this
    rw [this]
    simp

theorem createBody_eq (s : Sandbox) (body_def : b2BodyDef) (fixture_defs : List b2FixtureDef) :
    s.createBody body_def fixture_defs
      = (freshHandle (s.mWorld.bodies.map b2Body.id),
        { s with mWorld :=
          { bodies :=
              { id := freshHandle (s.mWorld.bodies.map b2Body.id), type := body_def.type,
                position := body_def.position, mass := 0, awake := true,
                fixtures := fixture_defs } :: s.mWorld.bodies
            joints := s.mWorld.joints } }) := by
  have hfresh : ∀ x ∈ s.mWorld.bodies, x.id ≠ freshHandle (s.mWorld.bodies.map b2Body.id) :=
    fun x hx => Nat.ne_of_lt (lt_freshHandle _ x.id (List.mem_map_of_mem b2Body.id hx))
  have := foldl_CreateFixture_head fixture_defs
    { id := freshHandle (s.mWorld.bodies.map b2Body.id), type := body_def.type,
      position := body_def.position, mass := 0, awake := true, fixtures := [] }
    s.mWorld.bodies s.mWorld.joints hfresh
  simp only [List.nil_append] at this
  simp only [createBody, b2World.CreateBody]
  rw [this]

theorem createBoundaryRect_eq (fl : ℚ → ℚ) (s : Sandbox) (screen_bounds : Rectf)
    (thickness : ℚ) :
    s.createBoundaryRect fl screen_bounds thickness
      = (freshHandle (s.worldWithoutBoundary.bodies.map b2Body.id),
        { s with
          mWorld :=
            { bodies :=
                s.boundaryBody fl screen_bounds thickness
                  (freshHandle (s.worldWithoutBoundary.bodies.map b2Body.id))
                  :: s.worldWithoutBoundary.bodies
              joints := s.worldWithoutBoundary.joints }
          mBoundaryBody := some (freshHandle (s.worldWithoutBoundary.bodies.map b2Body.id)) }) := by
  unfold createBoundaryRect
  simp only [createBody_eq]
  cases hb : s.mBoundaryBody with
  | none =>
    simp [worldWithoutBoundary, hb, boundaryBody, boundaryWalls, boundaryW, boundaryH,
      boundaryX, boundaryY, toPhysics, toPhysicsVec]
  | some b =>
    simp [worldWithoutBoundary, hb, boundaryBody, boundaryWalls, boundaryW, boundaryH,
      boundaryX, boundaryY, toPhysics, toPhysicsVec, destroyBody]

theorem worldWithoutBoundary_createBoundaryRect (fl : ℚ → ℚ) (s : Sandbox)
    (screen_bounds : Rectf) (thickness : ℚ) :
    (s.createBoundaryRect fl screen_bounds thickness).2.worldWithoutBoundary.bodies
      = s.worldWithoutBoundary.bodies := by
  rw [createBoundaryRect_eq]
  simp only [worldWithoutBoundary, b2World.DestroyBody, boundaryBody]
  rw [List.filter_cons]
  simp only [ne_eq, not_true_eq_false, decide_False, Bool.false_eq_true, if_false]
  rw [List.filter_eq_self]
  intro x hx
  have := lt_freshHandle _ x.id (List.mem_map_of_mem b2Body.id hx)
  simpa [worldWithoutBoundary] using Nat.ne_of_lt this

/-! ### Helper lemmas about single precision rounding -/

theorem roundHalfEven_eq (q : ℚ) (n : ℤ) (h1 : (n : ℚ) - 1 / 2 < q) (h2 : q < n + 1 / 2) :
    roundHalfEven q = n := by
  unfold roundHalfEven
  have hfl := Int.floor_le q
  have hlt := Int.lt_floor_add_one q
  have hcases : ⌊q⌋ = n ∨ ⌊q⌋ = n - 1 := by
    have a1 : ⌊q⌋ < n + 1 := by
      have : (⌊q⌋ : ℚ) < ((n + 1 : ℤ) : ℚ) := by push_cast; linarith
      exact_mod_cast this
    have a2 : n - 2 < ⌊q⌋ := by
      have : ((n - 2 : ℤ) : ℚ) < (⌊q⌋ : ℚ) := by push_cast; linarith
      exact_mod_cast this
    omega
  rcases hcases with h | h
  · rw [h]
    rw [if_pos (by linarith)]
  · rw [h]
    have hq : ¬ (q - ((n - 1 : ℤ) : ℚ) < 1 / 2) := by push_cast; linarith
    have hq2 : (1 : ℚ) / 2 < q - ((n - 1 : ℤ) : ℚ) := by push_cast; linarith
    rw [if_neg hq, if_pos hq2]
    ring

theorem f32_eq (q : ℚ) (e n : ℤ) (he : -126 ≤ e) (hlo : (2 : ℚ) ^ e ≤ |q|)
    (hhi : |q| < (2 : ℚ) ^ (e + 1))
    (h1 : (n : ℚ) - 1 / 2 < q / 2 ^ (e - 23)) (h2 : q / 2 ^ (e - 23) < n + 1 / 2) :
    f32 q = n * 2 ^ (e - 23) := by
  have hpos : 0 < |q| := lt_of_lt_of_le (zpow_pos (by norm_num) e) hlo
  have hq : q ≠ 0 := abs_pos.mp hpos
  have hlog : Int.log 2 |q| = e := by
    apply le_antisymm
    · have := (Int.lt_zpow_iff_log_lt (b := 2) (by norm_num) (x := e + 1) hpos).mp
        (by exact_mod_cast hhi)
      omega
    · exact (Int.zpow_le_iff_le_log (b := 2) (by norm_num) hpos).mp (by exact_mod_cast hlo)
  unfold f32
  rw [if_neg hq, hlog, max_eq_left he, roundHalfEven_eq _ n h1 h2]

theorem f32_one : f32 1 = 1 := by
  rw [f32_eq 1 0 8388608 (by norm_num) (by norm_num) (by norm_num) (by norm_num)
    (by norm_num)]
  norm_num

/-- C6: for every state and all arguments (and every rounding of the float arithmetic), two
calls of `createBoundaryRect` in succession leave exactly one boundary body in the world.
The first call links its body `b1` in front of the bodies that remain once a previous
boundary body is destroyed; the second call destroys `b1` before creating its own body
`b2`, so that the body list is `b2` in front of the same remaining bodies, none of which
carries the handle of `b1` or `b2`, and the body count after the second call equals the
count after the first.  After each call the stored boundary reference and the returned
handle name the body just created. -/
theorem createBoundaryRect_twice_one_boundary (fl : ℚ → ℚ) (s : Sandbox) (r1 r2 : Rectf)
    (t1 t2 : ℚ) :
    ∃ b1 b2 : b2Body,
      (s.createBoundaryRect fl r1 t1).2.mWorld.bodies = b1 :: s.worldWithoutBoundary.bodies ∧
      (s.createBoundaryRect fl r1 t1).2.worldWithoutBoundary.bodies
        = s.worldWithoutBoundary.bodies ∧
      ((s.createBoundaryRect fl r1 t1).2.createBoundaryRect fl r2 t2).2.mWorld.bodies
        = b2 :: s.worldWithoutBoundary.bodies ∧
      (∀ x ∈ s.worldWithoutBoundary.bodies, x.id ≠ b1.id ∧ x.id ≠ b2.id) ∧
      ((s.createBoundaryRect fl r1 t1).2.createBoundaryRect fl r2 t2).2.mWorld.bodies.length
        = (s.createBoundaryRect fl r1 t1).2.mWorld.bodies.length ∧
      (s.createBoundaryRect fl r1 t1).1 = b1.id ∧
      (s.createBoundaryRect fl r1 t1).2.mBoundaryBody = some b1.id ∧
      ((s.createBoundaryRect fl r1 t1).2.createBoundaryRect fl r2 t2).1 = b2.id ∧
      ((s.createBoundaryRect fl r1 t1).2.createBoundaryRect fl r2 t2).2.mBoundaryBody
        = some b2.id ∧
      b1 = s.boundaryBody fl r1 t1 b1.id ∧
      b2 = s.boundaryBody fl r2 t2 b2.id := by
  have hw := worldWithoutBoundary_createBoundaryRect fl s r1 t1
  have h2 := createBoundaryRect_eq fl (s.createBoundaryRect fl r1 t1).2 r2 t2
  rw [hw] at h2
  have h1 := createBoundaryRect_eq fl s r1 t1
  have hfresh : ∀ x ∈ s.worldWithoutBoundary.bodies,
      x.id ≠ freshHandle (s.worldWithoutBoundary.bodies.map b2Body.id) :=
    fun x hx => Nat.ne_of_lt (lt_freshHandle _ x.id (List.mem_map_of_mem b2Body.id hx))
  have hscale : (s.createBoundaryRect fl r1 t1).2.boundaryBody fl r2 t2
      (freshHandle (s.worldWithoutBoundary.bodies.map b2Body.id))
      = s.boundaryBody fl r2 t2 (freshHandle (s.worldWithoutBoundary.bodies.map b2Body.id)) := by
    rw [h1]
    rfl
  refine ⟨s.boundaryBody fl r1 t1 (freshHandle (s.worldWithoutBoundary.bodies.map b2Body.id)),
    s.boundaryBody fl r2 t2 (freshHandle (s.worldWithoutBoundary.bodies.map b2Body.id)),
    ?_, hw, ?_, ?_, ?_, ?_, ?_, ?_, ?_, rfl, rfl⟩
  · rw [h1]
  · rw [h2, hscale]
  · intro x hx
    exact ⟨hfresh x hx, hfresh x hx⟩
  · rw [h2]
    rw [h1]
    simp
  · rw [h1]; rfl
  · rw [h1]; rfl
  · rw [h2]; rfl
  · rw [h2]; rfl

theorem idleScene_press_on_crate_hit :
    (idleScene.pressQuery boxEngine pressOnCrate).m_fixture
      = some { body := crateBody, fixture := unitBox } := by
  norm_num [Sandbox.pressQuery, Sandbox.pressPoint, Sandbox.pressBox, idleScene, pressOnCrate,
    boxEngine, b2World.QueryAABB, allFixtures, reportAll, QueryCallback.ReportFixture,
    boxTestPoint, crateBody, groundBody, unitBox, QueryCallback.new, Sandbox.toPhysics,
    MouseEvent.getPos, b2PolygonShape.SetAsBox, boxMinX, boxMaxX, boxMinY, boxMaxY]

/-- Witness for C2: at 100 points per metre a press at (250, 100) on the crate creates one
joint between the crate (handle 2) and the boundary body (handle 1), with maximum force
3000 for a mass of 3 and target (5/2, 1). -/
theorem mouseDown_hit_creates_one_drag_joint_witness :
    idleScene.mMouseJoint = none ∧
    (idleScene.pressQuery boxEngine pressOnCrate).m_fixture
      = some { body := crateBody, fixture := unitBox } ∧
    ∃ j : b2Joint,
      (idleScene.mouseDown boxEngine pressOnCrate).2.mWorld.joints
        = j :: idleScene.mWorld.joints ∧
      (idleScene.mouseDown boxEngine pressOnCrate).2.mMouseJoint = some j.id ∧
      j.bodyA = some 2 ∧ j.bodyB = some 1 ∧ j.maxForce = 3000 ∧ j.target = ⟨5 / 2, 1⟩ := by
  obtain ⟨j, h1, _, _, h4, h5, h6, h7, h8, _⟩ :=
    mouseDown_hit_creates_one_drag_joint boxEngine idleScene pressOnCrate
      { body := crateBody, fixture := unitBox } rfl idleScene_press_on_crate_hit
  refine ⟨rfl, idleScene_press_on_crate_hit, j, h1, h4, h5, h6, ?_, ?_⟩
  · rw [h7]
    norm_num [crateBody]
  · rw [h8]
    norm_num [idleScene, pressOnCrate, MouseEvent.getPos]

/-- Witness for C3: a press at (900, 900), where no fixture lies, leaves the scene as it
is. -/
theorem mouseDown_miss_changes_nothing_witness :
    idleScene.mMouseJoint = none ∧
    idleScene.mouseDown boxEngine pressOnNothing = (false, idleScene) ∧
    (idleScene.mouseDown boxEngine pressOnNothing).2.mMouseJoint = none ∧
    (idleScene.mouseDown boxEngine pressOnNothing).2.mWorld.joints = idleScene.mWorld.joints :=
  have h := mouseDown_miss_changes_nothing boxEngine idleScene pressOnNothing rfl (by
    intro f hf
    have hf2 : f = { body := crateBody, fixture := unitBox } ∨
        f = { body := groundBody, fixture := unitBox } := by
      simpa [boxEngine, allFixtures, idleScene, crateBody, groundBody] using hf
    rcases hf2 with h | h <;> subst h <;>
      norm_num [boxEngine, boxTestPoint, crateBody, groundBody, unitBox, Sandbox.pressPoint,
        idleScene, pressOnNothing, Sandbox.toPhysics, MouseEvent.getPos,
        b2PolygonShape.SetAsBox, boxMinX, boxMaxX, boxMinY, boxMaxY])
  ⟨rfl, h.1, h.2.1, h.2.2.1⟩

/-- Witness for C4: press on the crate, one drag, then release: the joint list is empty
again, as before the press. -/
theorem mouseUp_restores_joint_list_witness :
    idleScene.mMouseJoint = none ∧
    (idleScene.mouseDown boxEngine pressOnCrate).2.mMouseJoint.isSome = true ∧
    ((((idleScene.mouseDown boxEngine pressOnCrate).2.dragAll [pressOnNothing]).mouseUp
      pressOnNothing).2.mMouseJoint = none) ∧
    ((((idleScene.mouseDown boxEngine pressOnCrate).2.dragAll [pressOnNothing]).mouseUp
      pressOnNothing).2.mWorld.joints = []) :=
  have h := mouseUp_restores_joint_list boxEngine idleScene pressOnCrate pressOnNothing
    [pressOnNothing] { body := crateBody, fixture := unitBox } rfl idleScene_press_on_crate_hit
  ⟨rfl, h.1, h.2.2.1, h.2.2.2.1⟩

theorem idleScene_press_twice_one_joint :
    (idleScene.deliverAll boxEngine
      [.press pressOnCrate, .press pressOnCrate]).mWorld.joints.length = 1 := by
  norm_num [Sandbox.deliverAll, Sandbox.deliver, Sandbox.mouseDown, idleScene, pressOnCrate,
    boxEngine, b2World.QueryAABB, allFixtures, reportAll, QueryCallback.ReportFixture,
    boxTestPoint, crateBody, groundBody, unitBox, QueryCallback.new, Sandbox.toPhysics,
    MouseEvent.getPos, b2PolygonShape.SetAsBox, b2World.CreateJoint, b2World.SetAwake,
    freshHandle, boxMinX, boxMaxX, boxMinY, boxMaxY]

/-- Witness for C1: in the scene reached by a press on the crate the drag-joint reference is
non-null and a second press is rejected; and after two presses on the crate delivered from
the idle scene the world holds one joint more than before, not two. -/
theorem mouseDown_rejected_while_dragging_witness :
    (idleScene.mouseDown boxEngine pressOnCrate).2.mMouseJoint.isSome = true ∧
    (idleScene.mouseDown boxEngine pressOnCrate).2.mouseDown boxEngine pressOnCrate
      = (false, (idleScene.mouseDown boxEngine pressOnCrate).2) ∧
    idleScene.mMouseJoint = none ∧
    (∃ created : List b2Joint,
      (idleScene.deliverAll boxEngine [.press pressOnCrate, .press pressOnCrate]).mWorld.joints
        = created ++ idleScene.mWorld.joints ∧ created.length ≤ 1) ∧
    (idleScene.deliverAll boxEngine
      [.press pressOnCrate, .press pressOnCrate]).mWorld.joints.length = 1 := by
  have hsome : (idleScene.mouseDown boxEngine pressOnCrate).2.mMouseJoint.isSome = true := by
    rw [mouseDown_hit_eq boxEngine idleScene pressOnCrate _ rfl idleScene_press_on_crate_hit]
    rfl
  have hA := (mouseDown_rejected_while_dragging boxEngine
    (idleScene.mouseDown boxEngine pressOnCrate).2 pressOnCrate []).1 hsome
  obtain ⟨created, hjoints, hlen, _⟩ :=
    (mouseDown_rejected_while_dragging boxEngine idleScene pressOnCrate
      [.press pressOnCrate, .press pressOnCrate]).2 rfl
  exact ⟨hsome, hA.1, rfl, ⟨created, hjoints, hlen⟩, idleScene_press_twice_one_joint⟩

end sansumbrella
